import Mathlib

/-!
Verification of the `multimodal-rag-samples` repository.

The development shallowly embeds the two scripts that the claims are about:

* `samples/extract_pdf.py` — strategy-based PDF text extraction
  (`measure_time`, `save_sections_to_dirs`, `PDFExtractor.save_sections`,
  `PyPDF2Extractor.extract_text`, `PDFPlumberExtractor.extract_text`,
  `convert_pdf_to_images`, `main`);
* `samples/simple_gemini_ocr.py` — Gemini OCR over a directory
  (`find_image_file`, `process_files`).

The behaviour of the third-party PDF libraries (PyPDF2, pdfplumber,
pdf2image) is abstracted into a `PdfLib` record: opening/parsing a file is
an `Except`-valued result (modelling a raised exception), and per-page
extraction is an abstract function from pages to strings.  File-system side
effects (directory creation, file writes) and console prints are collected
into an explicit event trace; a small file-system model folds a trace into
a state so that properties about the resulting files and directories can be
stated and, on concrete inputs, computed.
-/

namespace ExtractPdf

/-- `os.path.join a b` (POSIX): concatenation with a `/` separator. -/
def joinPath (a b : String) : String := a ++ "/" ++ b

/-- Split a character list on a separator character (the pieces contain no
separator; n separators yield n+1 pieces). -/
def splitOnChar (c : Char) : List Char → List (List Char)
  | [] => [[]]
  | x :: xs =>
    match splitOnChar c xs with
    | [] => [[]]
    | r :: rs => if x = c then [] :: r :: rs else (x :: r) :: rs

/-- `os.path.basename p` (POSIX): the part of `p` after the last `/`. -/
def basename (p : String) : String :=
  String.mk ((splitOnChar '/' p.toList).getLastD p.toList)

/-- Index (position) of the last `.` of a character list, if any. -/
def lastDotIdx (cs : List Char) : Option Nat :=
  ((cs.enum.filter (fun ic => ic.2 = '.')).map (fun ic => ic.1)).getLast?

/-- `os.path.splitext(s)[0]` for a plain file name `s`: everything before
the last dot, except that a name consisting of leading dots only up to that
dot (e.g. `.bashrc`) is not split. -/
def splitextFst (s : String) : String :=
  match lastDotIdx s.toList with
  | none => s
  | some i =>
    if (s.toList.take i).all (fun c => c = '.') then s
    else String.mk (s.toList.take i)

/-- Join character-list pieces with `/` (inverse of `splitOnChar '/'`). -/
def joinWithSlash : List (List Char) → List Char
  | [] => []
  | [x] => x
  | x :: xs => x ++ '/' :: joinWithSlash xs

/-- `os.path.splitext(p)[0]` for a path `p`: the extension is split off the
last path component only. -/
def splitextFstPath (p : String) : String :=
  let parts := splitOnChar '/' p.toList
  String.mk (joinWithSlash
    (parts.dropLast ++ [(splitextFst (String.mk (parts.getLastD p.toList))).toList]))

/-- Python's `s.endswith(suffix)`. -/
def strEndsWith (s suffix : String) : Bool :=
  suffix.toList.isSuffixOf s.toList

/-- One observable side effect of a run of `extract_pdf.py`:
a directory creation (`os.makedirs`), a file write
(`open(..., 'w')`/`image.save`), or a console `print`. -/
inductive Event where
  | mkdir (path : String)
  | write (path : String) (content : String)
  | print (msg : String)
deriving DecidableEq, Repr

/-- The file-write events of a trace, as `(path, content)` pairs. -/
def writesOf (es : List Event) : List (String × String) :=
  es.filterMap (fun e =>
    match e with
    | Event.write p c => some (p, c)
    | _ => none)

/-- The directory-creation events of a trace. -/
def mkdirsOf (es : List Event) : List String :=
  es.filterMap (fun e =>
    match e with
    | Event.mkdir p => some p
    | _ => none)

/-- `enumerate(xs, start=i)`: pair every element with its index, counting
from `i`. -/
def enumFrom {α : Type} : Nat → List α → List (Nat × α)
  | _, [] => []
  | i, x :: xs => (i, x) :: enumFrom (i + 1) xs

/-- The body of the `for i, section in enumerate(sections, start=1)` loop of
`save_sections_to_dirs`: for each section, create `parent_dir/i` and call
`save_func` on the section and the extension-less target path
`parent_dir/i/section_i_processname`. -/
def saveLoop {σ : Type} (parent_dir process_name : String)
    (save_func : σ → String → List Event) : Nat → List σ → List Event
  | _, [] => []
  | i, s :: rest =>
    let section_dir := joinPath parent_dir (toString i)
    let section_file :=
      joinPath section_dir ("section_" ++ toString i ++ "_" ++ process_name)
    (Event.mkdir section_dir :: save_func s section_file)
      ++ saveLoop parent_dir process_name save_func (i + 1) rest

/-- `save_sections_to_dirs(file_path, sections, output_dir, save_func,
process_name)`: make `output_dir/<basename without extension>`, then save
each section into its own numbered subdirectory, numbering from 1. -/
def save_sections_to_dirs {σ : Type} (file_path : String) (sections : List σ)
    (output_dir : String) (save_func : σ → String → List Event)
    (process_name : String) : List Event :=
  let base_name := splitextFst (basename file_path)
  let parent_dir := joinPath output_dir base_name
  Event.mkdir parent_dir :: saveLoop parent_dir process_name save_func 1 sections

/-- The `save_text` closure of `PDFExtractor.save_sections`: write the
section text to `<file_path>.txt`. -/
def save_text (sec : String) (file_path : String) : List Event :=
  [Event.write (file_path ++ ".txt") sec]

/-- The `save_image` closure of `convert_pdf_to_images`: save the page image
to `<file_path>.png` (image contents are modelled as strings). -/
def save_image (image : String) (file_path : String) : List Event :=
  [Event.write (file_path ++ ".png") image]

/-- `PDFExtractor.save_sections(self, sections)`, with the instance state
(`self.file_path`, `self.output_dir`) and the class name
(`self.__class__.__name__`) passed explicitly. -/
def save_sections (file_path output_dir class_name : String)
    (sections : List String) : List Event :=
  save_sections_to_dirs file_path sections output_dir save_text class_name

/-- The `sections = []; for page in ...: sections.append(f page)` loop shared
by both extractors' `extract_text` bodies. -/
def extractSections {α β : Type} (f : α → β) (pages : List α) : List β :=
  pages.foldl (fun sections page => sections ++ [f page]) []

theorem extractSections_eq_map {α β : Type} (f : α → β) (pages : List α) :
    extractSections f pages = pages.map f := by
  have h : ∀ (l : List α) (acc : List β),
      l.foldl (fun sections page => sections ++ [f page]) acc = acc ++ l.map f := by
    intro l
    induction l with
    | nil => intro acc; simp
    | cons x xs ih => intro acc; simp [List.foldl, ih, List.append_assoc]
  simpa [extractSections] using h pages []

theorem getD_extractSections {α : Type} (f : α → String) (pages : List α)
    (d : α) (k : Nat) (hk : k < pages.length) :
    (extractSections f pages).getD k "" = f (pages.getD k d) := by
  rw [extractSections_eq_map]
  induction pages generalizing k with
  | nil => simp at hk
  | cons x xs ih =>
    cases k with
    | zero => simp [List.getD]
    | succ n =>
      have hn : n < xs.length := by simpa [List.length_cons, Nat.succ_lt_succ_iff] using hk
      simpa [List.getD] using ih n hn

/-- Abstraction of the third-party PDF libraries for one fixed input file.
Opening/parsing may raise (an `Except.error` models an uncaught Python
exception); each library's per-page extraction is an abstract function. -/
structure PdfLib (Page : Type) where
  /-- `PyPDF2.PdfReader(open(file_path, 'rb')).pages`, or the exception. -/
  openPy : Except String (List Page)
  /-- `pdfplumber.open(file_path).pages`, or the exception. -/
  openPlumber : Except String (List Page)
  /-- `convert_from_path(file_path)` page list, or the exception. -/
  openImages : Except String (List Page)
  /-- PyPDF2's `page.extract_text()`. -/
  pyText : Page → String
  /-- pdfplumber's `page.extract_text()`. -/
  plumberText : Page → String
  /-- pdf2image's rendering of a page (PNG contents, modelled as a string). -/
  pageImage : Page → String

/-- The body of `PyPDF2Extractor.extract_text` (the `measure_time` wrapper is
modelled separately): open the file with PyPDF2 — propagating any exception —
collect one extracted text per page, save the sections, return them together
with the trace of side effects. -/
def pyPDF2ExtractText {Page : Type} (lib : PdfLib Page)
    (file_path output_dir : String) : Except String (List String × List Event) :=
  match lib.openPy with
  | Except.error e => Except.error e
  | Except.ok pages =>
    let sections := extractSections lib.pyText pages
    Except.ok (sections, save_sections file_path output_dir "PyPDF2Extractor" sections)

/-- The body of `PDFPlumberExtractor.extract_text`, analogously. -/
def pdfPlumberExtractText {Page : Type} (lib : PdfLib Page)
    (file_path output_dir : String) : Except String (List String × List Event) :=
  match lib.openPlumber with
  | Except.error e => Except.error e
  | Except.ok pages =>
    let sections := extractSections lib.plumberText pages
    Except.ok (sections, save_sections file_path output_dir "PDFPlumberExtractor" sections)

/-- `convert_pdf_to_images(pdf_file_path, output_dir)`: make `output_dir`
when it does not exist (`output_dir_exists` models `os.path.exists`), convert
the PDF to one image per page — propagating any exception, with the side
effects performed so far kept — and save the images via
`save_sections_to_dirs` under process name `pdf2image`.  Returns the trace
and, on a raise, the exception. -/
def convert_pdf_to_images {Page : Type} (lib : PdfLib Page)
    (pdf_file_path output_dir : String) (output_dir_exists : Bool) :
    List Event × Option String :=
  let pre : List Event := if output_dir_exists then [] else [Event.mkdir output_dir]
  match lib.openImages with
  | Except.error e => (pre, some e)
  | Except.ok pages =>
    let images := pages.map lib.pageImage
    (pre ++ save_sections_to_dirs pdf_file_path images output_dir save_image "pdf2image",
      none)

/-- The two registered extractor classes (`TextractExtractor` is commented
out in the source). -/
inductive ExtractorClass where
  | pyPDF2
  | pdfPlumber
deriving DecidableEq, Repr

/-- The `extractor_classes` dict of `main`: only `PyPDF2` and `PDFPlumber`
are registered. -/
def extractor_classes : List (String × ExtractorClass) :=
  [("PyPDF2", ExtractorClass.pyPDF2), ("PDFPlumber", ExtractorClass.pdfPlumber)]

/-- Dispatch `extractor_class(file_path, output_dir).extract_text()`. -/
def runExtractor {Page : Type} (lib : PdfLib Page) (file_path output_dir : String) :
    ExtractorClass → Except String (List String × List Event)
  | ExtractorClass.pyPDF2 => pyPDF2ExtractText lib file_path output_dir
  | ExtractorClass.pdfPlumber => pdfPlumberExtractText lib file_path output_dir

/-- The printed excerpt `f"Extracted Text: {text[:100]}..."`: `text` is the
list of sections, so the slice keeps its first 100 elements. -/
def excerpt (text : List String) : String :=
  "Extracted Text: " ++ toString (text.take 100) ++ "..."

/-- One iteration of `main`'s `for extractor_name in extractors` loop: an
unknown name only prints `Unknown extractor: <name>`; a known one runs the
extractor — its exception, if any, aborts the loop — and prints a report.
Returns the events of the iteration and the propagated exception, if any. -/
def processName {Page : Type} (lib : PdfLib Page) (file_path output_dir : String)
    (extractor_name : String) : List Event × Option String :=
  match extractor_classes.lookup extractor_name with
  | some cls =>
    match runExtractor lib file_path output_dir cls with
    | Except.error e => ([], some e)
    | Except.ok (text, es) =>
      (es ++ [Event.print ("Extractor: " ++ extractor_name),
              Event.print (excerpt text),
              Event.print "Execution Time", Event.print "---"], none)
  | none => ([Event.print ("Unknown extractor: " ++ extractor_name)], none)

/-- `main`'s loop over the selected extractor names; a propagated exception
aborts the remaining iterations. -/
def processNames {Page : Type} (lib : PdfLib Page) (file_path output_dir : String) :
    List String → List Event × Option String
  | [] => ([], none)
  | n :: ns =>
    match processName lib file_path output_dir n with
    | (es, some e) => (es, some e)
    | (es, none) =>
      let r := processNames lib file_path output_dir ns
      (es ++ r.1, r.2)

/-- The part of `main` after the (possible) `['all']` expansion: the loop
over the names, then — if no exception was raised — `convert_pdf_to_images`. -/
def mainTail {Page : Type} (lib : PdfLib Page) (file_path output_dir : String)
    (output_dir_exists : Bool) (names : List String) : List Event × Option String :=
  match processNames lib file_path output_dir names with
  | (t, some e) => (t, some e)
  | (t, none) =>
    let r := convert_pdf_to_images lib file_path output_dir output_dir_exists
    (t ++ r.1, r.2)

/-- `if extractors == ['all']: extractors = ['PyPDF2', 'PDFPlumber',
'Textract']`. -/
def expandExtractors (extractors : List String) : List String :=
  if extractors = ["all"] then ["PyPDF2", "PDFPlumber", "Textract"] else extractors

/-- `main(file_path, extractors, output_dir)`: expand the default selection,
process every selected extractor name, then convert the PDF pages to images.
Returns the event trace and the uncaught exception, if one was raised. -/
def main {Page : Type} (lib : PdfLib Page) (file_path : String)
    (extractors : List String) (output_dir : String) (output_dir_exists : Bool) :
    List Event × Option String :=
  mainTail lib file_path output_dir output_dir_exists (expandExtractors extractors)

/-- A model file system: an association list of files (path to contents,
first binding wins) and the list of existing directories. -/
structure FS where
  files : List (String × String)
  dirs : List String
deriving DecidableEq, Repr

/-- Write a file: `open(path, 'w')` semantics — replace the current binding
of the path if present, otherwise add one. -/
def setFile : List (String × String) → String → String → List (String × String)
  | [], k, v => [(k, v)]
  | (k0, v0) :: rest, k, v =>
    if k0 = k then (k0, v) :: rest else (k0, v0) :: setFile rest k v

/-- `os.makedirs(path, exist_ok=True)` semantics on the directory list. -/
def addDir (ds : List String) (d : String) : List String :=
  if d ∈ ds then ds else ds ++ [d]

/-- Apply one event to the file system (prints have no file-system effect). -/
def applyEvent (fs : FS) : Event → FS
  | Event.mkdir p => { fs with dirs := addDir fs.dirs p }
  | Event.write p c => { fs with files := setFile fs.files p c }
  | Event.print _ => fs

/-- Apply a whole trace, left to right. -/
def applyEvents (fs : FS) (es : List Event) : FS := es.foldl applyEvent fs

/-- The contents of the file at `p`, if it exists. -/
def readFS (fs : FS) (p : String) : Option String := fs.files.lookup p

/-- Whether directory `p` exists. -/
def isDirFS (fs : FS) (p : String) : Bool := decide (p ∈ fs.dirs)

/-- The content of the last write to path `p` in a trace, if any. -/
def lastWriteIn : List Event → String → Option String
  | [], _ => none
  | e :: rest, p =>
    match lastWriteIn rest p with
    | some c => some c
    | none =>
      match e with
      | Event.write q c => if q = p then some c else none
      | _ => none

theorem lookup_setFile_self (l : List (String × String)) (k v : String) :
    (setFile l k v).lookup k = some v := by
  induction l with
  | nil => simp [setFile, List.lookup]
  | cons kv rest ih =>
    by_cases h : kv.1 = k
    · simp [setFile, h, List.lookup]
    · have hbeq : (k == kv.1) = false :=
        beq_eq_false_iff_ne.mpr (fun hh => h hh.symm)
      simp [setFile, h, List.lookup, hbeq, ih]

theorem lookup_setFile_other (l : List (String × String)) (k v p : String)
    (hp : p ≠ k) : (setFile l k v).lookup p = l.lookup p := by
  have hpk : (p == k) = false := beq_eq_false_iff_ne.mpr hp
  induction l with
  | nil => simp [setFile, List.lookup, hpk]
  | cons kv rest ih =>
    by_cases h : kv.1 = k
    · by_cases h2 : p = kv.1
      · exact absurd (h2.trans h) hp
      · have hbeq : (p == kv.1) = false := beq_eq_false_iff_ne.mpr h2
        simp [setFile, h, List.lookup, hbeq, hpk]
    · by_cases h2 : p = kv.1
      · have hbeq : (p == kv.1) = true := beq_iff_eq.mpr h2
        simp [setFile, h, List.lookup, hbeq]
      · have hbeq : (p == kv.1) = false := beq_eq_false_iff_ne.mpr h2
        simp [setFile, h, List.lookup, hbeq, ih]

theorem readFS_applyEvents (fs : FS) (es : List Event) (p : String) :
    readFS (applyEvents fs es) p =
      (match lastWriteIn es p with
       | some c => some c
       | none => readFS fs p) := by
  induction es generalizing fs with
  | nil => simp [applyEvents, lastWriteIn]
  | cons e rest ih =>
    show readFS (applyEvents (applyEvent fs e) rest) p = _
    rw [ih]
    cases hrest : lastWriteIn rest p with
    | some c => simp [lastWriteIn, hrest]
    | none =>
      cases e with
      | mkdir q => simp [lastWriteIn, hrest, applyEvent, readFS]
      | print m => simp [lastWriteIn, hrest, applyEvent, readFS]
      | write q c =>
        by_cases hq : q = p
        · simp [lastWriteIn, hrest, applyEvent, readFS, hq, lookup_setFile_self]
        · simp [lastWriteIn, hrest, applyEvent, readFS, hq,
            lookup_setFile_other fs.files q c p (Ne.symm hq)]

theorem mem_addDir (ds : List String) (d q : String) :
    q ∈ addDir ds d ↔ q ∈ ds ∨ q = d := by
  by_cases h : d ∈ ds
  · constructor
    · intro hq
      exact Or.inl (by simpa [addDir, h] using hq)
    · intro hq
      have hmem : q ∈ ds := by
        rcases hq with hq | rfl
        · exact hq
        · exact h
      simpa [addDir, h] using hmem
  · simp [addDir, h, List.mem_append]

theorem mem_dirs_applyEvents (fs : FS) (es : List Event) (p : String) :
    p ∈ (applyEvents fs es).dirs ↔ p ∈ fs.dirs ∨ p ∈ mkdirsOf es := by
  induction es generalizing fs with
  | nil => simp [applyEvents, mkdirsOf]
  | cons e rest ih =>
    show p ∈ (applyEvents (applyEvent fs e) rest).dirs ↔ _
    rw [ih]
    cases e with
    | mkdir q =>
      simp only [applyEvent, mkdirsOf, List.filterMap, mem_addDir, List.mem_cons]
      tauto
    | print m => simp [applyEvent, mkdirsOf, List.filterMap]
    | write q c => simp [applyEvent, mkdirsOf, List.filterMap]

theorem readFS_applyEvents_idem (fs : FS) (es : List Event) (p : String) :
    readFS (applyEvents (applyEvents fs es) es) p = readFS (applyEvents fs es) p := by
  rw [readFS_applyEvents (applyEvents fs es) es p, readFS_applyEvents fs es p]
  cases h : lastWriteIn es p <;> simp [h]

theorem isDirFS_applyEvents_idem (fs : FS) (es : List Event) (p : String) :
    isDirFS (applyEvents (applyEvents fs es) es) p = isDirFS (applyEvents fs es) p := by
  simp only [isDirFS]
  rw [Bool.eq_iff_iff]
  simp only [decide_eq_true_iff]
  rw [mem_dirs_applyEvents (applyEvents fs es) es p, mem_dirs_applyEvents fs es p]
  tauto

/-- A wall clock: `time` gives the reading returned by the k-th call of
`time.time()` of the program run, `k` counts the calls made so far. -/
structure Clock where
  time : Nat → Nat
  k : Nat

/-- One call of `time.time()`: return the current reading, advance the call
counter. -/
def tick (c : Clock) : Nat × Clock :=
  (c.time c.k, { time := c.time, k := c.k + 1 })

/-- The `measure_time` decorator: read the clock, run the wrapped function
(itself allowed to read the clock), read the clock again, and return the
function's result paired with the elapsed time `end_time - start_time`. -/
def measure_time {β : Type} (func : Clock → β × Clock) (c : Clock) :
    (β × Int) × Clock :=
  let s := tick c
  let r := func s.2
  let e := tick r.2
  ((r.1, (e.1 : Int) - (s.1 : Int)), e.2)

/-- `PyPDF2Extractor.extract_text` as actually exposed: the body wrapped in
`measure_time` (the body itself makes no clock reads), yielding the
sections-and-trace result paired with the elapsed time. -/
def pyPDF2ExtractTextTimed {Page : Type} (lib : PdfLib Page)
    (file_path output_dir : String) (c : Clock) :
    ((Except String (List String × List Event)) × Int) × Clock :=
  measure_time (fun c0 => (pyPDF2ExtractText lib file_path output_dir, c0)) c

/-- `PDFPlumberExtractor.extract_text` as exposed, analogously. -/
def pdfPlumberExtractTextTimed {Page : Type} (lib : PdfLib Page)
    (file_path output_dir : String) (c : Clock) :
    ((Except String (List String × List Event)) × Int) × Clock :=
  measure_time (fun c0 => (pdfPlumberExtractText lib file_path output_dir, c0)) c

end ExtractPdf

namespace GeminiOcr

open ExtractPdf (joinPath splitextFst splitextFstPath strEndsWith)

/-- One observable effect of `process_files` in `simple_gemini_ocr.py`. -/
inductive OcrEvent where
  | print (msg : String)
  | upload (path : String)
  | readF (path : String)
  | modelCall (prompt : String) (imagePath : String)
  | write (path : String) (content : String)
deriving DecidableEq, Repr

/-- `find_image_file(directory_path)`: the first name in the directory
listing ending in `.png`, joined to the directory path; `None` when there is
none.  The listing (with `os.listdir`'s order) is passed explicitly. -/
def find_image_file (directory_path : String) (listing : List String) :
    Option String :=
  match listing.find? (fun filename => strEndsWith filename ".png") with
  | some filename => some (joinPath directory_path filename)
  | none => none

/-- The OCR prompt built for a text file's contents (the f-string of
`process_files` with `file_content` appended at the end). -/
def promptFor (file_content : String) : String :=
  "画像ファイルはPDFを画像化したものです。このPDFの配置構造を理解し、文脈を踏まえたうえでテキストになおしてください。文字は日本語をベースに書かれています。最終的な構造はMarkdown形式にして出力してください。その後、このPDFで書かれている内容を解釈して解説してください。これを別のPDF解析ツールで読み取りした結果は以下です。\n読み取り結果: "
    ++ file_content

/-- The body of `process_files(directory_path)`: abort with an error print
when the directory holds no PNG; otherwise, for every `.txt` file (directory
listing passed as name-contents pairs), upload the image, read the text
file, call the model, and write the response text to the sibling `.md`
file.  `model` abstracts `model.generate_content(...)`'s response text as a
function of the prompt and the image path. -/
def process_files (directory_path : String) (listing : List (String × String))
    (model : String → String → String) : List OcrEvent :=
  match find_image_file directory_path (listing.map Prod.fst) with
  | none => [OcrEvent.print "Error: No PNG file found in the directory."]
  | some image_path =>
    listing.flatMap (fun fc =>
      if strEndsWith fc.1 ".txt" then
        let file_path := joinPath directory_path fc.1
        let prompt := promptFor fc.2
        let md_file_path := splitextFstPath file_path ++ ".md"
        [OcrEvent.upload image_path,
         OcrEvent.readF file_path,
         OcrEvent.modelCall prompt image_path,
         OcrEvent.write md_file_path (model prompt image_path),
         OcrEvent.print ("Processed: " ++ fc.1)]
      else [])

/-- The file-write events of an OCR trace. -/
def ocrWritesOf (es : List OcrEvent) : List (String × String) :=
  es.filterMap (fun e =>
    match e with
    | OcrEvent.write p c => some (p, c)
    | _ => none)

/-- The model-call events of an OCR trace. -/
def ocrCallsOf (es : List OcrEvent) : List (String × String) :=
  es.filterMap (fun e =>
    match e with
    | OcrEvent.modelCall p i => some (p, i)
    | _ => none)

/-- The file-read events of an OCR trace. -/
def ocrReadsOf (es : List OcrEvent) : List String :=
  es.filterMap (fun e =>
    match e with
    | OcrEvent.readF p => some p
    | _ => none)

end GeminiOcr

namespace ExtractPdf

/-- The numbered directory `output_dir/<basename without ext>/<i>` that
`save_sections_to_dirs` creates for section `i`. -/
def sectionDirPath (output_dir file_path : String) (i : Nat) : String :=
  joinPath (joinPath output_dir (splitextFst (basename file_path))) (toString i)

/-- The file path `output_dir/<basename>/<i>/section_<i>_<process_name><ext>`
written for section `i` by a saver with the given process name and
extension. -/
def sectionFilePath (output_dir file_path : String) (i : Nat)
    (process_name ext : String) : String :=
  joinPath (sectionDirPath output_dir file_path i)
    ("section_" ++ toString i ++ "_" ++ process_name) ++ ext

/-- `p` names an entry directly inside directory `dir`. -/
def inDir (dir p : String) : Bool :=
  (dir.toList ++ ['/']).isPrefixOf p.toList &&
    !((p.toList.drop (dir.toList.length + 1)).contains '/')

/-- The directories of the file system lying directly under `parent`. -/
def childDirs (fs : FS) (parent : String) : List String :=
  fs.dirs.filter (fun d => inDir parent d)

/-- The files of the file system lying directly in `dir` whose name ends in
`ext`. -/
def filesIn (fs : FS) (dir ext : String) : List String :=
  (fs.files.map Prod.fst).filter (fun p => inDir dir p && strEndsWith p ext)

/-- A concrete 3-page PDF presented to the abstract libraries: pages are
numbered 0, 1, 2 and each library extracts a distinct marker string. -/
def lib3 : PdfLib Nat where
  openPy := Except.ok [0, 1, 2]
  openPlumber := Except.ok [0, 1, 2]
  openImages := Except.ok [0, 1, 2]
  pyText := fun n => "py" ++ toString n
  plumberText := fun n => "pl" ++ toString n
  pageImage := fun n => "img" ++ toString n

/-- A run of `main` on the 3-page PDF `doc.pdf` selecting both registered
extractors, writing under `out`. -/
def run3 : List Event × Option String :=
  main lib3 "doc.pdf" ["PyPDF2", "PDFPlumber"] "out" true

/-- The file system resulting from that run, starting from an empty one. -/
def fs3 : FS := applyEvents ⟨[], []⟩ run3.1

end ExtractPdf

namespace ExtractPdf

theorem writesOf_append (a b : List Event) :
    writesOf (a ++ b) = writesOf a ++ writesOf b := by
  simp [writesOf, List.filterMap_append]

theorem mkdirsOf_append (a b : List Event) :
    mkdirsOf (a ++ b) = mkdirsOf a ++ mkdirsOf b := by
  simp [mkdirsOf, List.filterMap_append]

theorem writesOf_saveLoop {σ : Type} (parent_dir process_name ext : String)
    (g : σ → String) (i : Nat) (sections : List σ) :
    writesOf (saveLoop parent_dir process_name
        (fun s fp => [Event.write (fp ++ ext) (g s)]) i sections) =
      (enumFrom i sections).map (fun is =>
        (joinPath (joinPath parent_dir (toString is.1))
            ("section_" ++ toString is.1 ++ "_" ++ process_name) ++ ext,
          g is.2)) := by
  induction sections generalizing i with
  | nil => rfl
  | cons s rest ih =>
    simp only [saveLoop, enumFrom, List.map_cons]
    rw [show (Event.mkdir (joinPath parent_dir (toString i)) ::
          [Event.write (joinPath (joinPath parent_dir (toString i))
              ("section_" ++ toString i ++ "_" ++ process_name) ++ ext) (g s)]) ++
          saveLoop parent_dir process_name
            (fun s fp => [Event.write (fp ++ ext) (g s)]) (i + 1) rest =
        Event.mkdir (joinPath parent_dir (toString i)) ::
          Event.write (joinPath (joinPath parent_dir (toString i))
              ("section_" ++ toString i ++ "_" ++ process_name) ++ ext) (g s) ::
          saveLoop parent_dir process_name
            (fun s fp => [Event.write (fp ++ ext) (g s)]) (i + 1) rest from rfl]
    simp only [writesOf, List.filterMap_cons]
    rw [← writesOf, ih]

theorem mkdirsOf_saveLoop {σ : Type} (parent_dir process_name ext : String)
    (g : σ → String) (i : Nat) (sections : List σ) :
    mkdirsOf (saveLoop parent_dir process_name
        (fun s fp => [Event.write (fp ++ ext) (g s)]) i sections) =
      (enumFrom i sections).map (fun is => joinPath parent_dir (toString is.1)) := by
  induction sections generalizing i with
  | nil => rfl
  | cons s rest ih =>
    simp only [saveLoop, enumFrom, List.map_cons]
    rw [show (Event.mkdir (joinPath parent_dir (toString i)) ::
          [Event.write (joinPath (joinPath parent_dir (toString i))
              ("section_" ++ toString i ++ "_" ++ process_name) ++ ext) (g s)]) ++
          saveLoop parent_dir process_name
            (fun s fp => [Event.write (fp ++ ext) (g s)]) (i + 1) rest =
        Event.mkdir (joinPath parent_dir (toString i)) ::
          Event.write (joinPath (joinPath parent_dir (toString i))
              ("section_" ++ toString i ++ "_" ++ process_name) ++ ext) (g s) ::
          saveLoop parent_dir process_name
            (fun s fp => [Event.write (fp ++ ext) (g s)]) (i + 1) rest from rfl]
    simp only [mkdirsOf, List.filterMap_cons]
    rw [← mkdirsOf, ih]

theorem save_text_eq : save_text = fun s fp => [Event.write (fp ++ ".txt") s] := rfl

theorem save_image_eq : save_image = fun s fp => [Event.write (fp ++ ".png") s] := rfl

theorem writesOf_save_sections (file_path output_dir class_name : String)
    (sections : List String) :
    writesOf (save_sections file_path output_dir class_name sections) =
      (enumFrom 1 sections).map (fun is =>
        (sectionFilePath output_dir file_path is.1 class_name ".txt", is.2)) := by
  show writesOf (Event.mkdir _ :: saveLoop _ _ _ 1 sections) = _
  have h := writesOf_saveLoop
    (joinPath output_dir (splitextFst (basename file_path))) class_name ".txt"
    (fun s => s) 1 sections
  simp only [writesOf, List.filterMap_cons] at h ⊢
  exact h

theorem mkdirsOf_save_sections (file_path output_dir class_name : String)
    (sections : List String) :
    mkdirsOf (save_sections file_path output_dir class_name sections) =
      joinPath output_dir (splitextFst (basename file_path)) ::
        (enumFrom 1 sections).map (fun is => sectionDirPath output_dir file_path is.1) := by
  show mkdirsOf (Event.mkdir _ :: saveLoop _ _ _ 1 sections) = _
  have h := mkdirsOf_saveLoop
    (joinPath output_dir (splitextFst (basename file_path))) class_name ".txt"
    (fun s => s) 1 sections
  simp only [mkdirsOf, List.filterMap_cons] at h ⊢
  exact congrArg (fun l => joinPath output_dir (splitextFst (basename file_path)) :: l) h

theorem enumFrom_map_fst {α : Type} (i : Nat) (xs : List α) :
    (enumFrom i xs).map Prod.fst = List.range' i xs.length := by
  induction xs generalizing i with
  | nil => rfl
  | cons x rest ih => simp [enumFrom, List.range', ih]

theorem writesOf_convert_pdf_to_images {Page : Type} (lib : PdfLib Page)
    (file_path output_dir : String) (output_dir_exists : Bool) (pages : List Page)
    (h : lib.openImages = Except.ok pages) :
    writesOf (convert_pdf_to_images lib file_path output_dir output_dir_exists).1 =
      (enumFrom 1 (pages.map lib.pageImage)).map (fun is =>
        (sectionFilePath output_dir file_path is.1 "pdf2image" ".png", is.2)) := by
  have hmain := writesOf_saveLoop
    (joinPath output_dir (splitextFst (basename file_path))) "pdf2image" ".png"
    (fun s => s) 1 (pages.map lib.pageImage)
  cases output_dir_exists with
  | true =>
    simp only [convert_pdf_to_images, h, if_pos]
    show writesOf ([] ++ Event.mkdir _ :: saveLoop _ _ _ 1 _) = _
    rw [List.nil_append]
    simp only [writesOf, List.filterMap_cons] at hmain ⊢
    exact hmain
  | false =>
    simp only [convert_pdf_to_images, h]
    show writesOf ([Event.mkdir output_dir] ++ Event.mkdir _ :: saveLoop _ _ _ 1 _) = _
    rw [writesOf_append]
    simp only [writesOf, List.filterMap_cons, List.filterMap_nil] at hmain ⊢
    simpa using hmain

theorem processNames_append {Page : Type} (lib : PdfLib Page)
    (file_path output_dir : String) (xs ys : List String) :
    processNames lib file_path output_dir (xs ++ ys) =
      (match processNames lib file_path output_dir xs with
       | (t, some e) => (t, some e)
       | (t, none) =>
         ((t ++ (processNames lib file_path output_dir ys).1),
           (processNames lib file_path output_dir ys).2)) := by
  induction xs with
  | nil => simp [processNames]
  | cons n ns ih =>
    show processNames lib file_path output_dir (n :: (ns ++ ys)) = _
    simp only [processNames]
    cases hp : processName lib file_path output_dir n with
    | mk es c =>
      cases c with
      | some e => rfl
      | none =>
        simp only [ih]
        cases hq : processNames lib file_path output_dir ns with
        | mk t c2 =>
          cases c2 with
          | some e2 => rfl
          | none => simp [List.append_assoc]

/-- Claim C1: for a PDF whose libraries expose the page lists `pagesPy`
(PyPDF2) and `pagesPl` (pdfplumber), each registered extraction strategy's
`extract_text` returns exactly one section per page, in page order: both
extractors succeed with section list `extractSections <lib text> <pages>`,
that list has the same length as the page list, and its k-th element is the
library's extracted text of the k-th page. -/
theorem spec_c1_extract_text_per_page {Page : Type} (lib : PdfLib Page)
    (file_path output_dir : String) (pagesPy pagesPl : List Page) (d : Page) (k : Nat)
    (hPy : lib.openPy = Except.ok pagesPy)
    (hPl : lib.openPlumber = Except.ok pagesPl) :
    ∃ evPy evPl,
      pyPDF2ExtractText lib file_path output_dir =
        Except.ok (extractSections lib.pyText pagesPy, evPy) ∧
      pdfPlumberExtractText lib file_path output_dir =
        Except.ok (extractSections lib.plumberText pagesPl, evPl) ∧
      (extractSections lib.pyText pagesPy).length = pagesPy.length ∧
      (extractSections lib.plumberText pagesPl).length = pagesPl.length ∧
      (k < pagesPy.length →
        (extractSections lib.pyText pagesPy).getD k "" = lib.pyText (pagesPy.getD k d)) ∧
      (k < pagesPl.length →
        (extractSections lib.plumberText pagesPl).getD k "" =
          lib.plumberText (pagesPl.getD k d)) := by
  refine ⟨save_sections file_path output_dir "PyPDF2Extractor"
      (extractSections lib.pyText pagesPy),
    save_sections file_path output_dir "PDFPlumberExtractor"
      (extractSections lib.plumberText pagesPl), ?_, ?_, ?_, ?_, ?_, ?_⟩
  · simp [pyPDF2ExtractText, hPy]
  · simp [pdfPlumberExtractText, hPl]
  · rw [extractSections_eq_map, List.length_map]
  · rw [extractSections_eq_map, List.length_map]
  · intro hk
    exact getD_extractSections lib.pyText pagesPy d k hk
  · intro hk
    exact getD_extractSections lib.plumberText pagesPl d k hk

/-- Concrete instance of C1 on the 3-page document `lib3` at page index 1. -/
theorem spec_c1_extract_text_per_page_witness :
    ∃ evPy evPl,
      pyPDF2ExtractText lib3 "doc.pdf" "out" =
        Except.ok (extractSections lib3.pyText [0, 1, 2], evPy) ∧
      pdfPlumberExtractText lib3 "doc.pdf" "out" =
        Except.ok (extractSections lib3.plumberText [0, 1, 2], evPl) ∧
      (extractSections lib3.pyText [0, 1, 2]).length = [0, 1, 2].length ∧
      (extractSections lib3.plumberText [0, 1, 2]).length = [0, 1, 2].length ∧
      (1 < [0, 1, 2].length →
        (extractSections lib3.pyText [0, 1, 2]).getD 1 "" =
          lib3.pyText ([0, 1, 2].getD 1 0)) ∧
      (1 < [0, 1, 2].length →
        (extractSections lib3.plumberText [0, 1, 2]).getD 1 "" =
          lib3.plumberText ([0, 1, 2].getD 1 0)) :=
  spec_c1_extract_text_per_page lib3 "doc.pdf" "out" [0, 1, 2] [0, 1, 2] 0 1 rfl rfl

/-- Claim C2: a selected extractor name that is not a key of
`extractor_classes` never crashes the run and contributes no file-system
event: its loop iteration is exactly the `Unknown extractor` print (which
writes no file), the trace of the run equals the trace of the same run
without that name with only that print inserted, the crash status of the two
runs is identical, and (for a selection other than the expanded `['all']`)
`main` is exactly this loop. -/
theorem spec_c2_unknown_extractor_skipped {Page : Type} (lib : PdfLib Page)
    (file_path output_dir : String) (output_dir_exists : Bool)
    (pre post : List String) (bad : String)
    (hBad : extractor_classes.lookup bad = none)
    (hPre : (processNames lib file_path output_dir pre).2 = none) :
    processName lib file_path output_dir bad =
      ([Event.print ("Unknown extractor: " ++ bad)], none) ∧
    writesOf [Event.print ("Unknown extractor: " ++ bad)] = [] ∧
    mainTail lib file_path output_dir output_dir_exists (pre ++ bad :: post) =
      ((processNames lib file_path output_dir pre).1 ++
          Event.print ("Unknown extractor: " ++ bad) ::
            (mainTail lib file_path output_dir output_dir_exists post).1,
        (mainTail lib file_path output_dir output_dir_exists post).2) ∧
    mainTail lib file_path output_dir output_dir_exists (pre ++ post) =
      ((processNames lib file_path output_dir pre).1 ++
          (mainTail lib file_path output_dir output_dir_exists post).1,
        (mainTail lib file_path output_dir output_dir_exists post).2) ∧
    (pre ++ bad :: post ≠ ["all"] →
      main lib file_path (pre ++ bad :: post) output_dir output_dir_exists =
        mainTail lib file_path output_dir output_dir_exists (pre ++ bad :: post)) := by
  have hBadRun : processName lib file_path output_dir bad =
      ([Event.print ("Unknown extractor: " ++ bad)], none) := by
    simp [processName, hBad]
  refine ⟨hBadRun, rfl, ?_, ?_, ?_⟩
  · cases hq : processNames lib file_path output_dir pre with
    | mk Tpre cpre =>
      have hc : cpre = none := by
        rw [hq] at hPre
        exact hPre
      subst hc
      simp only [mainTail, processNames_append, hq]
      show (match (match processNames lib file_path output_dir (bad :: post) with
        | (t, c) => (Tpre ++ t, c)) with
        | (t, some e) => (t, some e)
        | (t, none) => _) = _
      simp only [processNames, hBadRun]
      cases hr : processNames lib file_path output_dir post with
      | mk Tpost cpost =>
        cases cpost with
        | some e => simp
        | none => simp [List.append_assoc]
  · cases hq : processNames lib file_path output_dir pre with
    | mk Tpre cpre =>
      have hc : cpre = none := by
        rw [hq] at hPre
        exact hPre
      subst hc
      simp only [mainTail, processNames_append, hq]
      cases hr : processNames lib file_path output_dir post with
      | mk Tpost cpost =>
        cases cpost with
        | some e => simp
        | none => simp [List.append_assoc]
  · intro hne
    simp [main, expandExtractors, hne]

/-- Concrete instance of C2: the unregistered name `Bogus` ahead of
`PyPDF2`, on the 3-page document. -/
theorem spec_c2_unknown_extractor_skipped_witness :
    processName lib3 "doc.pdf" "out" "Bogus" =
      ([Event.print ("Unknown extractor: " ++ "Bogus")], none) ∧
    writesOf [Event.print ("Unknown extractor: " ++ "Bogus")] = [] ∧
    mainTail lib3 "doc.pdf" "out" true ([] ++ "Bogus" :: ["PyPDF2"]) =
      ((processNames lib3 "doc.pdf" "out" []).1 ++
          Event.print ("Unknown extractor: " ++ "Bogus") ::
            (mainTail lib3 "doc.pdf" "out" true ["PyPDF2"]).1,
        (mainTail lib3 "doc.pdf" "out" true ["PyPDF2"]).2) ∧
    mainTail lib3 "doc.pdf" "out" true ([] ++ ["PyPDF2"]) =
      ((processNames lib3 "doc.pdf" "out" []).1 ++
          (mainTail lib3 "doc.pdf" "out" true ["PyPDF2"]).1,
        (mainTail lib3 "doc.pdf" "out" true ["PyPDF2"]).2) ∧
    ([] ++ "Bogus" :: ["PyPDF2"] ≠ ["all"] →
      main lib3 "doc.pdf" ([] ++ "Bogus" :: ["PyPDF2"]) "out" true =
        mainTail lib3 "doc.pdf" "out" true ([] ++ "Bogus" :: ["PyPDF2"])) :=
  spec_c2_unknown_extractor_skipped lib3 "doc.pdf" "out" true [] ["PyPDF2"]
    "Bogus" rfl rfl

/-- Claim C8: the default selection `['all']` is expanded to
`['PyPDF2', 'PDFPlumber', 'Textract']`; `Textract` has no entry in
`extractor_classes`; hence a default invocation of `main` runs exactly the
PyPDF2 extractor and then the PDFPlumber extractor and prints
`Unknown extractor: Textract` for the third name. -/
theorem spec_c8_default_selection {Page : Type} (lib : PdfLib Page)
    (file_path output_dir : String) (output_dir_exists : Bool)
    (pagesPy pagesPl : List Page)
    (hPy : lib.openPy = Except.ok pagesPy)
    (hPl : lib.openPlumber = Except.ok pagesPl) :
    expandExtractors ["all"] = ["PyPDF2", "PDFPlumber", "Textract"] ∧
    extractor_classes.lookup "Textract" = none ∧
    main lib file_path ["all"] output_dir output_dir_exists =
      mainTail lib file_path output_dir output_dir_exists
        ["PyPDF2", "PDFPlumber", "Textract"] ∧
    processNames lib file_path output_dir ["PyPDF2", "PDFPlumber", "Textract"] =
      (save_sections file_path output_dir "PyPDF2Extractor"
          (extractSections lib.pyText pagesPy) ++
        [Event.print "Extractor: PyPDF2",
         Event.print (excerpt (extractSections lib.pyText pagesPy)),
         Event.print "Execution Time", Event.print "---"] ++
        (save_sections file_path output_dir "PDFPlumberExtractor"
            (extractSections lib.plumberText pagesPl) ++
          [Event.print "Extractor: PDFPlumber",
           Event.print (excerpt (extractSections lib.plumberText pagesPl)),
           Event.print "Execution Time", Event.print "---"] ++
          [Event.print ("Unknown extractor: " ++ "Textract")]), none) := by
  have h1 : extractor_classes.lookup "PyPDF2" = some ExtractorClass.pyPDF2 := rfl
  have h2 : extractor_classes.lookup "PDFPlumber" = some ExtractorClass.pdfPlumber := rfl
  have h3 : extractor_classes.lookup "Textract" = none := rfl
  refine ⟨rfl, h3, rfl, ?_⟩
  simp only [processNames, processName, h1, h2, h3, runExtractor,
    pyPDF2ExtractText, pdfPlumberExtractText, hPy, hPl]
  simp [List.append_assoc]

/-- Concrete instance of C8 on the 3-page document. -/
theorem spec_c8_default_selection_witness :
    expandExtractors ["all"] = ["PyPDF2", "PDFPlumber", "Textract"] ∧
    extractor_classes.lookup "Textract" = none ∧
    main lib3 "doc.pdf" ["all"] "out" true =
      mainTail lib3 "doc.pdf" "out" true ["PyPDF2", "PDFPlumber", "Textract"] ∧
    processNames lib3 "doc.pdf" "out" ["PyPDF2", "PDFPlumber", "Textract"] =
      (save_sections "doc.pdf" "out" "PyPDF2Extractor"
          (extractSections lib3.pyText [0, 1, 2]) ++
        [Event.print "Extractor: PyPDF2",
         Event.print (excerpt (extractSections lib3.pyText [0, 1, 2])),
         Event.print "Execution Time", Event.print "---"] ++
        (save_sections "doc.pdf" "out" "PDFPlumberExtractor"
            (extractSections lib3.plumberText [0, 1, 2]) ++
          [Event.print "Extractor: PDFPlumber",
           Event.print (excerpt (extractSections lib3.plumberText [0, 1, 2])),
           Event.print "Execution Time", Event.print "---"] ++
          [Event.print ("Unknown extractor: " ++ "Textract")]), none) :=
  spec_c8_default_selection lib3 "doc.pdf" "out" true [0, 1, 2] [0, 1, 2] rfl rfl

/-- Claim C7: when opening/parsing the input fails in each library (e.g. the
file is missing), the exception propagates unhandled: both extractors'
`extract_text` re-raise it as is, `main` terminates with an uncaught
exception, and no file content is written anywhere in the run (no partial
result is saved). -/
theorem spec_c7_failure_propagates {Page : Type} (lib : PdfLib Page)
    (file_path : String) (extractors : List String) (output_dir : String)
    (output_dir_exists : Bool) (ePy ePl eIm : String)
    (hPy : lib.openPy = Except.error ePy)
    (hPl : lib.openPlumber = Except.error ePl)
    (hIm : lib.openImages = Except.error eIm) :
    pyPDF2ExtractText lib file_path output_dir = Except.error ePy ∧
    pdfPlumberExtractText lib file_path output_dir = Except.error ePl ∧
    ((main lib file_path extractors output_dir output_dir_exists).2).isSome = true ∧
    writesOf (main lib file_path extractors output_dir output_dir_exists).1 = [] := by
  have hbodyPy : pyPDF2ExtractText lib file_path output_dir = Except.error ePy := by
    simp [pyPDF2ExtractText, hPy]
  have hbodyPl : pdfPlumberExtractText lib file_path output_dir = Except.error ePl := by
    simp [pdfPlumberExtractText, hPl]
  have hrun : ∀ cls, ∃ e, runExtractor lib file_path output_dir cls = Except.error e := by
    intro cls
    cases cls with
    | pyPDF2 => exact ⟨ePy, hbodyPy⟩
    | pdfPlumber => exact ⟨ePl, hbodyPl⟩
  have hnames : ∀ names : List String,
      writesOf (processNames lib file_path output_dir names).1 = [] := by
    intro names
    induction names with
    | nil => rfl
    | cons n ns ih =>
      simp only [processNames, processName]
      cases hl : extractor_classes.lookup n with
      | some cls =>
        obtain ⟨e, he⟩ := hrun cls
        simp [he, writesOf]
      | none => simpa [writesOf] using ih
  have hconv : writesOf (convert_pdf_to_images lib file_path output_dir
        output_dir_exists).1 = [] ∧
      (convert_pdf_to_images lib file_path output_dir output_dir_exists).2 = some eIm := by
    cases output_dir_exists <;> simp [convert_pdf_to_images, hIm, writesOf]
  refine ⟨hbodyPy, hbodyPl, ?_, ?_⟩
  · show ((mainTail lib file_path output_dir output_dir_exists
        (expandExtractors extractors)).2).isSome = true
    simp only [mainTail]
    cases hq : processNames lib file_path output_dir (expandExtractors extractors) with
    | mk t c =>
      cases c with
      | some e => rfl
      | none => simp [hconv.2]
  · show writesOf (mainTail lib file_path output_dir output_dir_exists
        (expandExtractors extractors)).1 = []
    simp only [mainTail]
    cases hq : processNames lib file_path output_dir (expandExtractors extractors) with
    | mk t c =>
      have ht : writesOf t = [] := by
        have := hnames (expandExtractors extractors)
        rw [hq] at this
        exact this
      cases c with
      | some e => exact ht
      | none => simp [writesOf_append, ht, hconv.1]

/-- Concrete instance of C7: a library model in which every open fails. -/
theorem spec_c7_failure_propagates_witness :
    pyPDF2ExtractText
        ({ openPy := Except.error "no such file"
           openPlumber := Except.error "no such file"
           openImages := Except.error "no such file"
           pyText := fun n => toString n
           plumberText := fun n => toString n
           pageImage := fun n => toString n } : PdfLib Nat) "doc.pdf" "out" =
      Except.error "no such file" ∧
    pdfPlumberExtractText
        ({ openPy := Except.error "no such file"
           openPlumber := Except.error "no such file"
           openImages := Except.error "no such file"
           pyText := fun n => toString n
           plumberText := fun n => toString n
           pageImage := fun n => toString n } : PdfLib Nat) "doc.pdf" "out" =
      Except.error "no such file" ∧
    ((main
        ({ openPy := Except.error "no such file"
           openPlumber := Except.error "no such file"
           openImages := Except.error "no such file"
           pyText := fun n => toString n
           plumberText := fun n => toString n
           pageImage := fun n => toString n } : PdfLib Nat)
        "doc.pdf" ["all"] "out" true).2).isSome = true ∧
    writesOf (main
        ({ openPy := Except.error "no such file"
           openPlumber := Except.error "no such file"
           openImages := Except.error "no such file"
           pyText := fun n => toString n
           plumberText := fun n => toString n
           pageImage := fun n => toString n } : PdfLib Nat)
        "doc.pdf" ["all"] "out" true).1 = [] :=
  spec_c7_failure_propagates _ "doc.pdf" ["all"] "out" true
    "no such file" "no such file" "no such file" rfl rfl rfl

/-- Claim C4: extraction is idempotent.  The trace of a run of `main` is a
deterministic function of the inputs, so a second run with the same
arguments replays exactly the same directory creations and file writes to
the same paths; writes overwrite (`open(..., 'w')`), so applying the trace
a second time leaves every file's content and every directory's existence
exactly as after one run. -/
theorem spec_c4_rerun_idempotent {Page : Type} (lib : PdfLib Page)
    (file_path : String) (extractors : List String) (output_dir : String)
    (output_dir_exists : Bool) (fs : FS) (p : String) :
    readFS (applyEvents (applyEvents fs
          (main lib file_path extractors output_dir output_dir_exists).1)
        (main lib file_path extractors output_dir output_dir_exists).1) p =
      readFS (applyEvents fs
        (main lib file_path extractors output_dir output_dir_exists).1) p ∧
    isDirFS (applyEvents (applyEvents fs
          (main lib file_path extractors output_dir output_dir_exists).1)
        (main lib file_path extractors output_dir output_dir_exists).1) p =
      isDirFS (applyEvents fs
        (main lib file_path extractors output_dir output_dir_exists).1) p :=
  ⟨readFS_applyEvents_idem fs
      (main lib file_path extractors output_dir output_dir_exists).1 p,
    isDirFS_applyEvents_idem fs
      (main lib file_path extractors output_dir output_dir_exists).1 p⟩

theorem enumFrom_fst_ge {α : Type} (j : Nat) (xs : List α) (i : Nat) (s : α)
    (h : (i, s) ∈ enumFrom j xs) : j ≤ i := by
  induction xs generalizing j with
  | nil => simp [enumFrom] at h
  | cons x rest ih =>
    simp only [enumFrom, List.mem_cons] at h
    rcases h with h | h
    · cases h
      exact Nat.le_refl _
    · exact Nat.le_of_succ_le (ih (j + 1) h)

/-- Claim C5: every output file of a run lands at the documented nested
path.  The text savers write exactly one `.txt` file per section at
`output_dir/<basename>/<i>/section_<i>_<ClassName>.txt`, the image saver
exactly one `.png` per page at `.../section_<i>_pdf2image.png`, and every
write of a whole `main` run is at such a path for some section index
`i ≥ 1`. -/
theorem spec_c5_output_path_scheme {Page : Type} (lib : PdfLib Page)
    (file_path : String) (extractors : List String) (output_dir : String)
    (output_dir_exists : Bool) :
    (∀ (class_name : String) (sections : List String),
      writesOf (save_sections file_path output_dir class_name sections) =
        (enumFrom 1 sections).map (fun is =>
          (sectionFilePath output_dir file_path is.1 class_name ".txt", is.2))) ∧
    (∀ pages : List Page, lib.openImages = Except.ok pages →
      writesOf (convert_pdf_to_images lib file_path output_dir
          output_dir_exists).1 =
        (enumFrom 1 (pages.map lib.pageImage)).map (fun is =>
          (sectionFilePath output_dir file_path is.1 "pdf2image" ".png", is.2))) ∧
    (∀ p c, (p, c) ∈ writesOf
        (main lib file_path extractors output_dir output_dir_exists).1 →
      ∃ i process_name ext,
        ((process_name = "PyPDF2Extractor" ∧ ext = ".txt") ∨
         (process_name = "PDFPlumberExtractor" ∧ ext = ".txt") ∨
         (process_name = "pdf2image" ∧ ext = ".png")) ∧
        p = sectionFilePath output_dir file_path i process_name ext ∧ 1 ≤ i) := by
  refine ⟨fun class_name sections =>
    writesOf_save_sections file_path output_dir class_name sections,
    fun pages h =>
      writesOf_convert_pdf_to_images lib file_path output_dir output_dir_exists
        pages h, ?_⟩
  have hsave : ∀ (class_name ext : String) (sections : List String) p c,
      (p, c) ∈ (enumFrom 1 sections).map (fun is =>
          (sectionFilePath output_dir file_path is.1 class_name ext, is.2)) →
      ∃ i, p = sectionFilePath output_dir file_path i class_name ext ∧ 1 ≤ i := by
    intro class_name ext sections p c h
    simp only [List.mem_map] at h
    obtain ⟨is, his, heq⟩ := h
    refine ⟨is.1, ?_, ?_⟩
    · exact (congrArg Prod.fst heq).symm
    · exact enumFrom_fst_ge 1 sections is.1 is.2 (by
        have : (is.1, is.2) = is := rfl
        rw [this]
        exact his)
  have hwpn : ∀ n : String,
      writesOf (processName lib file_path output_dir n).1 =
        (match extractor_classes.lookup n with
         | none => []
         | some cls =>
           match runExtractor lib file_path output_dir cls with
           | Except.error _ => []
           | Except.ok v => writesOf v.2) := by
    intro n
    simp only [processName]
    cases hl : extractor_classes.lookup n with
    | none => simp [writesOf]
    | some cls =>
      cases hr : runExtractor lib file_path output_dir cls with
      | error e => simp [hr, writesOf]
      | ok v => simp [hr, writesOf_append, writesOf]
  have hcons : ∀ (n : String) (ns : List String) p c,
      (p, c) ∈ writesOf (processNames lib file_path output_dir (n :: ns)).1 →
      (p, c) ∈ writesOf (processName lib file_path output_dir n).1 ∨
      (p, c) ∈ writesOf (processNames lib file_path output_dir ns).1 := by
    intro n ns p c h
    cases hp : processName lib file_path output_dir n with
    | mk es cflag =>
      cases cflag with
      | some e =>
        have h2 : (p, c) ∈ writesOf es := by
          simpa only [processNames, hp] using h
        exact Or.inl h2
      | none =>
        have h2 : (p, c) ∈
            writesOf (es ++ (processNames lib file_path output_dir ns).1) := by
          simpa only [processNames, hp] using h
        rw [writesOf_append] at h2
        rcases List.mem_append.mp h2 with h3 | h3
        · exact Or.inl h3
        · exact Or.inr h3
  have hname : ∀ (names : List String) p c,
      (p, c) ∈ writesOf (processNames lib file_path output_dir names).1 →
      ∃ i process_name ext,
        ((process_name = "PyPDF2Extractor" ∧ ext = ".txt") ∨
         (process_name = "PDFPlumberExtractor" ∧ ext = ".txt") ∨
         (process_name = "pdf2image" ∧ ext = ".png")) ∧
        p = sectionFilePath output_dir file_path i process_name ext ∧ 1 ≤ i := by
    intro names
    induction names with
    | nil => intro p c h; simp [processNames, writesOf] at h
    | cons n ns ih =>
      intro p c h
      rcases hcons n ns p c h with h1 | h1
      · rw [hwpn n] at h1
        cases hl : extractor_classes.lookup n with
        | none =>
          rw [hl] at h1
          simp at h1
        | some cls =>
          rw [hl] at h1
          cases cls with
          | pyPDF2 =>
            have h1a : (p, c) ∈
                (match pyPDF2ExtractText lib file_path output_dir with
                 | Except.error _ => ([] : List (String × String))
                 | Except.ok v => writesOf v.2) := h1
            cases hr : pyPDF2ExtractText lib file_path output_dir with
            | error e =>
              rw [hr] at h1a
              simp at h1a
            | ok v =>
              rw [hr] at h1a
              have hv : v.2 =
                  save_sections file_path output_dir "PyPDF2Extractor" v.1 := by
                cases hop : lib.openPy with
                | error e => simp [pyPDF2ExtractText, hop] at hr
                | ok pages =>
                  simp only [pyPDF2ExtractText, hop] at hr
                  cases hr
                  rfl
              have h3 : (p, c) ∈ writesOf v.2 := h1a
              rw [hv, writesOf_save_sections] at h3
              obtain ⟨i, hp2, hi⟩ := hsave "PyPDF2Extractor" ".txt" v.1 p c h3
              exact ⟨i, "PyPDF2Extractor", ".txt", Or.inl ⟨rfl, rfl⟩, hp2, hi⟩
          | pdfPlumber =>
            have h1a : (p, c) ∈
                (match pdfPlumberExtractText lib file_path output_dir with
                 | Except.error _ => ([] : List (String × String))
                 | Except.ok v => writesOf v.2) := h1
            cases hr : pdfPlumberExtractText lib file_path output_dir with
            | error e =>
              rw [hr] at h1a
              simp at h1a
            | ok v =>
              rw [hr] at h1a
              have hv : v.2 =
                  save_sections file_path output_dir "PDFPlumberExtractor" v.1 := by
                cases hop : lib.openPlumber with
                | error e => simp [pdfPlumberExtractText, hop] at hr
                | ok pages =>
                  simp only [pdfPlumberExtractText, hop] at hr
                  cases hr
                  rfl
              have h3 : (p, c) ∈ writesOf v.2 := h1a
              rw [hv, writesOf_save_sections] at h3
              obtain ⟨i, hp2, hi⟩ := hsave "PDFPlumberExtractor" ".txt" v.1 p c h3
              exact ⟨i, "PDFPlumberExtractor", ".txt", Or.inr (Or.inl ⟨rfl, rfl⟩),
                hp2, hi⟩
      · exact ih p c h1
  intro p c h
  show ∃ i process_name ext, _
  have hmt : (main lib file_path extractors output_dir output_dir_exists) =
      mainTail lib file_path output_dir output_dir_exists
        (expandExtractors extractors) := rfl
  rw [hmt] at h
  simp only [mainTail] at h
  cases hq : processNames lib file_path output_dir (expandExtractors extractors) with
  | mk t cflag =>
    rw [hq] at h
    cases cflag with
    | some e =>
      exact hname (expandExtractors extractors) p c (by rw [hq]; exact h)
    | none =>
      rcases List.mem_append.mp (by
          simpa [writesOf_append] using h) with h2 | h2
      · exact hname (expandExtractors extractors) p c (by rw [hq]; exact h2)
      · cases hop : lib.openImages with
        | error e =>
          have : writesOf (convert_pdf_to_images lib file_path output_dir
              output_dir_exists).1 = [] := by
            cases output_dir_exists <;>
              simp [convert_pdf_to_images, hop, writesOf]
          rw [this] at h2
          simp at h2
        | ok pages =>
          rw [writesOf_convert_pdf_to_images lib file_path output_dir
            output_dir_exists pages hop] at h2
          obtain ⟨i, hp, hi⟩ :=
            hsave "pdf2image" ".png" (pages.map lib.pageImage) p c h2
          exact ⟨i, "pdf2image", ".png", Or.inr (Or.inr ⟨rfl, rfl⟩), hp, hi⟩

/-- Concrete instance of C5: the first PyPDF2 write of the 3-page run is at
a documented nested path. -/
theorem spec_c5_output_path_scheme_witness :
    ∃ i process_name ext,
      ((process_name = "PyPDF2Extractor" ∧ ext = ".txt") ∨
       (process_name = "PDFPlumberExtractor" ∧ ext = ".txt") ∨
       (process_name = "pdf2image" ∧ ext = ".png")) ∧
      "out/doc/1/section_1_PyPDF2Extractor.txt" =
        sectionFilePath "out" "doc.pdf" i process_name ext ∧ 1 ≤ i :=
  (spec_c5_output_path_scheme lib3 "doc.pdf" ["PyPDF2", "PDFPlumber"] "out"
      true).2.2 "out/doc/1/section_1_PyPDF2Extractor.txt" "py0" (by decide)

/-- Claim C9: `save_sections_to_dirs` numbers sections starting at 1.  For
every caller (a text saver with any class name, and the image saver), the
created directories under `output_dir/<basename>` carry exactly the names
`1` through `len(sections)`, and every written file's `section_<n>_...`
index equals the number of the directory that contains it: the write for
index `i` lands at `sectionDirPath .. i` joined with a name carrying the
same `i`. -/
theorem spec_c9_section_numbering (file_path output_dir process_name : String) :
    (∀ sections : List String,
      mkdirsOf (save_sections_to_dirs file_path sections output_dir save_text
          process_name) =
        joinPath output_dir (splitextFst (basename file_path)) ::
          (enumFrom 1 sections).map (fun is =>
            sectionDirPath output_dir file_path is.1)) ∧
    (∀ images : List String,
      mkdirsOf (save_sections_to_dirs file_path images output_dir save_image
          process_name) =
        joinPath output_dir (splitextFst (basename file_path)) ::
          (enumFrom 1 images).map (fun is =>
            sectionDirPath output_dir file_path is.1)) ∧
    (∀ sections : List String,
      (enumFrom 1 sections).map Prod.fst = List.range' 1 sections.length) ∧
    (∀ sections : List String,
      writesOf (save_sections_to_dirs file_path sections output_dir save_text
          process_name) =
        (enumFrom 1 sections).map (fun is =>
          (joinPath (sectionDirPath output_dir file_path is.1)
              ("section_" ++ toString is.1 ++ "_" ++ process_name) ++ ".txt",
            is.2))) ∧
    (∀ images : List String,
      writesOf (save_sections_to_dirs file_path images output_dir save_image
          process_name) =
        (enumFrom 1 images).map (fun is =>
          (joinPath (sectionDirPath output_dir file_path is.1)
              ("section_" ++ toString is.1 ++ "_" ++ process_name) ++ ".png",
            is.2))) := by
  refine ⟨?_, ?_, ?_, ?_, ?_⟩
  · intro sections
    show mkdirsOf (Event.mkdir _ :: saveLoop _ _ _ 1 sections) = _
    have h := mkdirsOf_saveLoop
      (joinPath output_dir (splitextFst (basename file_path))) process_name ".txt"
      (fun s => s) 1 sections
    simp only [mkdirsOf, List.filterMap_cons] at h ⊢
    exact congrArg (fun l =>
      joinPath output_dir (splitextFst (basename file_path)) :: l) h
  · intro images
    show mkdirsOf (Event.mkdir _ :: saveLoop _ _ _ 1 images) = _
    have h := mkdirsOf_saveLoop
      (joinPath output_dir (splitextFst (basename file_path))) process_name ".png"
      (fun s => s) 1 images
    simp only [mkdirsOf, List.filterMap_cons] at h ⊢
    exact congrArg (fun l =>
      joinPath output_dir (splitextFst (basename file_path)) :: l) h
  · intro sections
    exact enumFrom_map_fst 1 sections
  · intro sections
    show writesOf (Event.mkdir _ :: saveLoop _ _ _ 1 sections) = _
    have h := writesOf_saveLoop
      (joinPath output_dir (splitextFst (basename file_path))) process_name ".txt"
      (fun s => s) 1 sections
    simp only [writesOf, List.filterMap_cons] at h ⊢
    exact h
  · intro images
    show writesOf (Event.mkdir _ :: saveLoop _ _ _ 1 images) = _
    have h := writesOf_saveLoop
      (joinPath output_dir (splitextFst (basename file_path))) process_name ".png"
      (fun s => s) 1 images
    simp only [writesOf, List.filterMap_cons] at h ⊢
    exact h

/-- Claim C3 counterexample: on a 3-page PDF processed by both registered
extractors into `out`, the run does create exactly the 3 page directories
`out/doc/1`, `out/doc/2`, `out/doc/3`, but the first page directory holds
two text files (one per extractor), not exactly one. -/
theorem spec_c3_counterexample :
    childDirs fs3 "out/doc" = ["out/doc/1", "out/doc/2", "out/doc/3"] ∧
    (filesIn fs3 "out/doc/1" ".txt").length = 2 ∧
    ¬ (filesIn fs3 "out/doc/1" ".txt").length = 1 := by
  refine ⟨by decide, by decide, by decide⟩

/-- Claim C3 as amended: a 3-page PDF processed by both registered
extractors yields exactly 3 page subdirectories, each containing exactly
one text file per extractor — two text files — plus one PNG page image, and
the run does not crash. -/
theorem spec_c3_amended :
    run3.2 = none ∧
    childDirs fs3 "out/doc" = ["out/doc/1", "out/doc/2", "out/doc/3"] ∧
    (filesIn fs3 "out/doc/1" ".txt").length = 2 ∧
    (filesIn fs3 "out/doc/2" ".txt").length = 2 ∧
    (filesIn fs3 "out/doc/3" ".txt").length = 2 ∧
    (filesIn fs3 "out/doc/1" "PyPDF2Extractor.txt").length = 1 ∧
    (filesIn fs3 "out/doc/1" "PDFPlumberExtractor.txt").length = 1 ∧
    (filesIn fs3 "out/doc/1" ".png").length = 1 ∧
    (filesIn fs3 "out/doc/2" ".png").length = 1 ∧
    (filesIn fs3 "out/doc/3" ".png").length = 1 := by
  refine ⟨rfl, by decide, by decide, by decide, by decide, by decide, by decide,
    by decide, by decide, by decide⟩

theorem measure_time_spec {β : Type} (func : Clock → β × Clock) (c : Clock)
    (hmono : Monotone c.time)
    (hpres : ∀ c0 : Clock, ((func c0).2).time = c0.time)
    (hk : ∀ c0 : Clock, c0.k ≤ ((func c0).2).k) :
    (measure_time func c).1.1 = (func (tick c).2).1 ∧
    0 ≤ (measure_time func c).1.2 := by
  refine ⟨rfl, ?_⟩
  show (0 : Int) ≤
    ((tick (func (tick c).2).2).1 : Int) - ((tick c).1 : Int)
  have h1 : (tick c).1 = c.time c.k := rfl
  have h2 : (tick (func (tick c).2).2).1 =
      ((func (tick c).2).2).time ((func (tick c).2).2).k := rfl
  have h3 : ((func (tick c).2).2).time = c.time := hpres (tick c).2
  have h4 : c.k ≤ ((func (tick c).2).2).k := by
    have ha : ((tick c).2).k ≤ ((func (tick c).2).2).k := hk (tick c).2
    have hb : c.k ≤ ((tick c).2).k := Nat.le_succ c.k
    exact Nat.le_trans hb ha
  rw [h1, h2, h3]
  have h5 : c.time c.k ≤ c.time ((func (tick c).2).2).k := hmono h4
  exact Int.sub_nonneg.mpr (Int.ofNat_le.mpr h5)

/-- Claim C6: for any function wrapped by the `measure_time` decorator
(modelled as a clock-passing computation that may read but not reset the
clock), the wrapper returns the pair of exactly the wrapped function's
result and the non-negative elapsed wall-clock time; in particular both
extractors' decorated `extract_text` return their body's section result
together with a non-negative duration. -/
theorem spec_c6_measure_time {β : Type} {Page : Type} (func : Clock → β × Clock)
    (c : Clock) (lib : PdfLib Page) (file_path output_dir : String) (c2 : Clock)
    (hmono : Monotone c.time)
    (hpres : ∀ c0 : Clock, ((func c0).2).time = c0.time)
    (hk : ∀ c0 : Clock, c0.k ≤ ((func c0).2).k)
    (hmono2 : Monotone c2.time) :
    (measure_time func c).1.1 = (func (tick c).2).1 ∧
    0 ≤ (measure_time func c).1.2 ∧
    (pyPDF2ExtractTextTimed lib file_path output_dir c2).1.1 =
      pyPDF2ExtractText lib file_path output_dir ∧
    0 ≤ (pyPDF2ExtractTextTimed lib file_path output_dir c2).1.2 ∧
    (pdfPlumberExtractTextTimed lib file_path output_dir c2).1.1 =
      pdfPlumberExtractText lib file_path output_dir ∧
    0 ≤ (pdfPlumberExtractTextTimed lib file_path output_dir c2).1.2 := by
  obtain ⟨hg1, hg2⟩ := measure_time_spec func c hmono hpres hk
  obtain ⟨hp1, hp2⟩ := measure_time_spec
    (fun c0 => (pyPDF2ExtractText lib file_path output_dir, c0)) c2 hmono2
    (fun c0 => rfl) (fun c0 => Nat.le_refl _)
  obtain ⟨hq1, hq2⟩ := measure_time_spec
    (fun c0 => (pdfPlumberExtractText lib file_path output_dir, c0)) c2 hmono2
    (fun c0 => rfl) (fun c0 => Nat.le_refl _)
  exact ⟨hg1, hg2, hp1, hp2, hq1, hq2⟩

/-- Concrete instance of C6: the identity-reading clock starting at call 0,
a constant wrapped function, and the extractors on the 3-page document. -/
theorem spec_c6_measure_time_witness :
    (measure_time (fun c0 => (42, c0)) ⟨fun n => n, 0⟩).1.1 =
      ((fun c0 => ((42 : Nat), c0)) (tick ⟨fun n => n, 0⟩).2).1 ∧
    0 ≤ (measure_time (fun c0 => ((42 : Nat), c0)) ⟨fun n => n, 0⟩).1.2 ∧
    (pyPDF2ExtractTextTimed lib3 "doc.pdf" "out" ⟨fun n => n, 0⟩).1.1 =
      pyPDF2ExtractText lib3 "doc.pdf" "out" ∧
    0 ≤ (pyPDF2ExtractTextTimed lib3 "doc.pdf" "out" ⟨fun n => n, 0⟩).1.2 ∧
    (pdfPlumberExtractTextTimed lib3 "doc.pdf" "out" ⟨fun n => n, 0⟩).1.1 =
      pdfPlumberExtractText lib3 "doc.pdf" "out" ∧
    0 ≤ (pdfPlumberExtractTextTimed lib3 "doc.pdf" "out" ⟨fun n => n, 0⟩).1.2 :=
  spec_c6_measure_time (fun c0 => ((42 : Nat), c0)) ⟨fun n => n, 0⟩ lib3
    "doc.pdf" "out" ⟨fun n => n, 0⟩ (fun _ _ h => h) (fun _ => rfl)
    (fun _ => Nat.le_refl _) (fun _ _ h => h)

end ExtractPdf

namespace GeminiOcr

open ExtractPdf (joinPath splitextFstPath strEndsWith)

theorem ocrWritesOf_append (a b : List OcrEvent) :
    ocrWritesOf (a ++ b) = ocrWritesOf a ++ ocrWritesOf b := by
  simp [ocrWritesOf, List.filterMap_append]

/-- Claim C10: when the directory holds no `.png` file, `process_files`
returns right after the error print — no text file is read, no model call is
made, no `.md` file is written; when a PNG is found, every `.txt` file in
the listing produces exactly one write, to the sibling `.md` path with the
same basename, holding the model's response. -/
theorem spec_c10_process_files_gate (directory_path : String)
    (listing : List (String × String)) (model : String → String → String)
    (image_path : String) :
    ((listing.map Prod.fst).all (fun fn => !(strEndsWith fn ".png")) = true →
      process_files directory_path listing model =
        [OcrEvent.print "Error: No PNG file found in the directory."] ∧
      ocrReadsOf (process_files directory_path listing model) = [] ∧
      ocrCallsOf (process_files directory_path listing model) = [] ∧
      ocrWritesOf (process_files directory_path listing model) = []) ∧
    (find_image_file directory_path (listing.map Prod.fst) = some image_path →
      ocrWritesOf (process_files directory_path listing model) =
        (listing.filter (fun fc => strEndsWith fc.1 ".txt")).map (fun fc =>
          (splitextFstPath (joinPath directory_path fc.1) ++ ".md",
            model (promptFor fc.2) image_path))) := by
  constructor
  · intro hall
    have hnone : find_image_file directory_path (listing.map Prod.fst) = none := by
      have h0 : ∀ fn ∈ listing.map Prod.fst, ¬ strEndsWith fn ".png" = true := by
        intro fn hfn
        have := List.all_eq_true.mp hall fn hfn
        simpa using this
      simp only [find_image_file]
      rw [List.find?_eq_none.mpr h0]
    have hpf : process_files directory_path listing model =
        [OcrEvent.print "Error: No PNG file found in the directory."] := by
      simp only [process_files, hnone]
    exact ⟨hpf, by rw [hpf]; rfl, by rw [hpf]; rfl, by rw [hpf]; rfl⟩
  · intro hfound
    have hpf : process_files directory_path listing model =
        listing.flatMap (fun fc =>
          if strEndsWith fc.1 ".txt" then
            [OcrEvent.upload image_path,
             OcrEvent.readF (joinPath directory_path fc.1),
             OcrEvent.modelCall (promptFor fc.2) image_path,
             OcrEvent.write (splitextFstPath (joinPath directory_path fc.1) ++ ".md")
               (model (promptFor fc.2) image_path),
             OcrEvent.print ("Processed: " ++ fc.1)]
          else []) := by
      simp only [process_files, hfound]
    have key : ∀ l : List (String × String),
        ocrWritesOf (l.flatMap (fun fc =>
          if strEndsWith fc.1 ".txt" then
            [OcrEvent.upload image_path,
             OcrEvent.readF (joinPath directory_path fc.1),
             OcrEvent.modelCall (promptFor fc.2) image_path,
             OcrEvent.write (splitextFstPath (joinPath directory_path fc.1) ++ ".md")
               (model (promptFor fc.2) image_path),
             OcrEvent.print ("Processed: " ++ fc.1)]
          else [])) =
        (l.filter (fun fc => strEndsWith fc.1 ".txt")).map (fun fc =>
          (splitextFstPath (joinPath directory_path fc.1) ++ ".md",
            model (promptFor fc.2) image_path)) := by
      intro l
      induction l with
      | nil => rfl
      | cons fc rest ih =>
        rw [List.flatMap_cons, ocrWritesOf_append, ih]
        cases ht : strEndsWith fc.1 ".txt" with
        | true => simp [ht, ocrWritesOf]
        | false => simp [ht, ocrWritesOf]
    rw [hpf]
    exact key listing

/-- Concrete instances of C10: a directory without any PNG, and one with a
PNG and one text file. -/
theorem spec_c10_process_files_gate_witness :
    (process_files "d" [("a.txt", "hello")] (fun p i => p ++ "|" ++ i) =
        [OcrEvent.print "Error: No PNG file found in the directory."] ∧
      ocrReadsOf (process_files "d" [("a.txt", "hello")]
        (fun p i => p ++ "|" ++ i)) = [] ∧
      ocrCallsOf (process_files "d" [("a.txt", "hello")]
        (fun p i => p ++ "|" ++ i)) = [] ∧
      ocrWritesOf (process_files "d" [("a.txt", "hello")]
        (fun p i => p ++ "|" ++ i)) = []) ∧
    ocrWritesOf (process_files "d" [("page.png", "IMG"), ("a.txt", "hello")]
        (fun p i => p ++ "|" ++ i)) =
      ([("page.png", "IMG"), ("a.txt", "hello")].filter (fun fc =>
          strEndsWith fc.1 ".txt")).map (fun fc =>
        (splitextFstPath (joinPath "d" fc.1) ++ ".md",
          (fun p i => p ++ "|" ++ i) (promptFor fc.2) "d/page.png")) :=
  ⟨(spec_c10_process_files_gate "d" [("a.txt", "hello")]
      (fun p i => p ++ "|" ++ i) "unused").1 (by decide),
    (spec_c10_process_files_gate "d" [("page.png", "IMG"), ("a.txt", "hello")]
      (fun p i => p ++ "|" ++ i) "d/page.png").2 (by decide)⟩

end GeminiOcr
